import Mathlib

/-!
A shallow embedding of the `squid-db` storage engine (`squid-db/src/lib.rs`).

Records are kept generic, as in the Rust code: an `Ops T` bundle supplies the
`Attributes` trait (`id`, `ttl`), the bincode codec and `size_of::<T>()`.
Segment files live in a `Disk`; each stored line is modelled atomically as the
encoded bytes of one record (the model assumes encodings are free of the line
separator, the framing the on-disk format relies on).

The active segment is accessed through a handle opened with
`read(true).append(true)`. Reads through such a handle consume the shared file
offset, and every `O_APPEND` write leaves that offset at end-of-file, so the
model of the handle carries its read cursor (`fileOffset`, counted in lines:
every read runs to end-of-file and every write appends whole lines, hence the
cursor always sits on a line boundary). Segment names are opaque and modelled
as `Nat`, with `Disk.fresh` standing in for `uuid::Uuid::new_v4()`.
-/

set_option linter.unusedVariables false
set_option maxRecDepth 2000

namespace SquidDB

/-- One encoded record, stored as one line of a segment file (its bytes,
line separator excluded). -/
abbrev Line := List Nat

/-- Database errors (`DbError`). -/
inductive DbError where
  | DirCreationFailed
  | Unspecified
  | FailedDeserialization
  | FailedSerialization
  | FailedReading
  | FailedWriting
deriving DecidableEq

/-- Outcome of a fallible operation: a returned `DbError`, or a Rust panic
(arithmetic underflow or out-of-bounds indexing). -/
inductive Fault where
  | db : DbError → Fault
  | panicked : Fault
deriving DecidableEq

/-- Capabilities of the stored record type `T`: the `Attributes` trait
(`id`, `ttl`), the bincode codec (`serialize` returns `none` on a
serialization failure, `deserialize` returns `none` on undecodable bytes) and
`std::mem::size_of::<T>()`. -/
structure Ops (T : Type) where
  id : T → String
  ttl : T → Option Nat
  serialize : T → Option Line
  deserialize : Line → Option T
  size_of : Nat

/-- The data directory: segment files by name in `read_dir` order, plus a
supply of fresh names standing in for `uuid::Uuid::new_v4()`. -/
structure Disk where
  files : List (Nat × List Line)
  fresh : Nat
deriving DecidableEq

/-- Content of a segment file, as a fresh `File::open` would find it. -/
def Disk.get (d : Disk) (n : Nat) : Option (List Line) :=
  d.files.lookup n

/-- Overwrite the content of segment `n` (no effect when `n` does not exist). -/
def Disk.put (d : Disk) (n : Nat) (ls : List Line) : Disk :=
  ⟨d.files.map (fun p => if p.1 = n then (n, ls) else p), d.fresh⟩

/-- Create a fresh, empty segment file (`OpenOptions::create(true)` on a newly
generated path), returning its name. -/
def Disk.create (d : Disk) : Nat × Disk :=
  (d.fresh, ⟨d.files ++ [(d.fresh, [])], d.fresh + 1⟩)

/-- `MAX_ENTRIES_PER_FILE`. -/
def MAX_ENTRIES_PER_FILE : Nat := 10000

/-- One database instance (`Instance<T>`), together with nothing hidden: the
`file` handle is the pair `fileName`/`fileOffset`, the TTL manager of the
`ttl` field holds its entries directly, and `entries`/`memtable` mirror the
fields of the source. -/
structure Instance (T : Type) where
  fileName : Nat
  fileOffset : Nat
  index : List (String × Nat)
  ttl : Option (List (String × Nat))
  entries : List T
  memtable : List T
  memtable_flush_size_in_kb : Nat
deriving DecidableEq

/-- `BTreeMap::insert`: the new binding shadows any previous one for the same
key. -/
def insertIdx (k : String) (v : Nat) (m : List (String × Nat)) :
    List (String × Nat) :=
  (k, v) :: m.filter (fun p => p.1 != k)

/-- Modelled from the spec: `TTL::add_entry` of the `ttl` module (its source
file is not part of the sources at hand) registers one `(identifier, expiry)`
entry with the scheduler; re-inserting the same identifier creates an
independent entry. -/
def addEntry (id : String) (expiry : Nat) (entries : List (String × Nat)) :
    List (String × Nat) :=
  entries ++ [(id, expiry)]

variable {T : Type}

/-- `Instance::save`: count the lines readable from the handle's current
offset (the `BufReader` rescan — the read consumes the shared offset, and the
following `O_APPEND` write leaves it at the new end-of-file), append `buf`
plus a separator, and rotate to a fresh segment once `line_count + 1` reaches
`MAX_ENTRIES_PER_FILE`. -/
def save (inst : Instance T) (disk : Disk) (buf : Line) :
    Except Fault Unit × Instance T × Disk :=
  let lines := (disk.get inst.fileName).getD []
  let line_count := lines.length - inst.fileOffset
  let inst1 := { inst with fileOffset := max inst.fileOffset lines.length }
  let newLines := lines ++ [buf]
  let disk1 := disk.put inst1.fileName newLines
  let inst2 := { inst1 with fileOffset := newLines.length }
  if MAX_ENTRIES_PER_FILE ≤ line_count + 1 then
    let nd := disk1.create
    (Except.ok (), { inst2 with fileName := nd.1, fileOffset := 0 }, nd.2)
  else
    (Except.ok (), inst2, disk1)

/-- Serialization of a list of records in order; the first bincode failure
aborts the whole batch. -/
def serAll (ops : Ops T) : List T → Option (List Line)
  | [] => some []
  | t :: ts =>
    match ops.serialize t with
    | none => none
    | some e =>
      match serAll ops ts with
      | none => none
      | some es => some (e :: es)

/-- The non-overflow path of `flush`: encode the whole memtable, append it to
the active segment in one write, clear the buffer. -/
def flushFit (ops : Ops T) (inst1 : Instance T) (disk : Disk)
    (lines : List Line) : Except Fault Unit × Instance T × Disk :=
  match serAll ops inst1.memtable with
  | none => (Except.error (Fault.db DbError.FailedSerialization), inst1, disk)
  | some encs =>
    let lines1 := lines ++ encs
    (Except.ok (),
      { inst1 with fileOffset := lines1.length, memtable := [] },
      disk.put inst1.fileName lines1)

/-- The tail of the split path of `flush`, after the first `file_limit`
records were encoded into the buffer as `partA`: append `partA` to the active
segment, rotate to a fresh segment, and write the buffer again — the source
never resets it — now extended with the records after index `file_limit`
(the record at `file_limit` itself is skipped); the memtable survives
untouched. -/
def flushSplitWrite (ops : Ops T) (inst1 : Instance T) (disk : Disk)
    (lines : List Line) (rest : List T) (partA : List Line) :
    Except Fault Unit × Instance T × Disk :=
  let lines1 := lines ++ partA
  let disk1 := disk.put inst1.fileName lines1
  let inst2 := { inst1 with fileOffset := lines1.length }
  let nd := disk1.create
  let inst3 := { inst2 with fileName := nd.1, fileOffset := 0 }
  match serAll ops rest with
  | none => (Except.error (Fault.db DbError.FailedSerialization), inst3, nd.2)
  | some partB =>
    let content := partA ++ partB
    (Except.ok (), { inst3 with fileOffset := content.length },
      nd.2.put nd.1 content)

/-- The split path of `flush`, taken when the rescan's count plus the
memtable length exceeds the capacity. A count above the capacity underflows
the `usize` subtraction computing `file_limit`, which ends in a panic. -/
def flushSplit (ops : Ops T) (inst1 : Instance T) (disk : Disk)
    (lines : List Line) (line_count : Nat) :
    Except Fault Unit × Instance T × Disk :=
  if MAX_ENTRIES_PER_FILE < line_count then
    match serAll ops inst1.memtable with
    | none => (Except.error (Fault.db DbError.FailedSerialization), inst1, disk)
    | some _ => (Except.error Fault.panicked, inst1, disk)
  else
    let file_limit := MAX_ENTRIES_PER_FILE - line_count
    match serAll ops (inst1.memtable.take file_limit) with
    | none => (Except.error (Fault.db DbError.FailedSerialization), inst1, disk)
    | some partA =>
      flushSplitWrite ops inst1 disk lines
        ((inst1.memtable.drop (file_limit + 1)).take
          (line_count + inst1.memtable.length - MAX_ENTRIES_PER_FILE - 1))
        partA

/-- `Instance::flush`: rescan the handle for a line count (again from the
handle's shared offset), then either append the whole memtable in one write
and clear it (`flushFit`), or split the operation across a rotation
(`flushSplit`). -/
def flush (ops : Ops T) (inst : Instance T) (disk : Disk) :
    Except Fault Unit × Instance T × Disk :=
  let lines := (disk.get inst.fileName).getD []
  let line_count := lines.length - inst.fileOffset
  let inst1 := { inst with fileOffset := max inst.fileOffset lines.length }
  if MAX_ENTRIES_PER_FILE < line_count + inst1.memtable.length then
    flushSplit ops inst1 disk lines line_count
  else
    flushFit ops inst1 disk lines

/-- The write path of `Instance::set`: either serialize and write through
synchronously (threshold 0), or buffer into the memtable and flush once the
estimated footprint exceeds the threshold, with the flush's `DbError`s
remapped to `Unspecified`. -/
def setWrite (ops : Ops T) (inst1 : Instance T) (disk : Disk) (data : T) :
    Except Fault Unit × Instance T × Disk :=
  match inst1.memtable_flush_size_in_kb with
  | 0 =>
    match ops.serialize data with
    | none => (Except.error (Fault.db DbError.FailedSerialization), inst1, disk)
    | some encoded => save inst1 disk encoded
  | Nat.succ _ =>
    let inst2 := { inst1 with memtable := inst1.memtable ++ [data] }
    if inst2.memtable_flush_size_in_kb
        < inst2.memtable.length * ops.size_of / 1000 then
      match flush ops inst2 disk with
      | (Except.error (Fault.db _), i, d) =>
        (Except.error (Fault.db DbError.Unspecified), i, d)
      | (Except.error Fault.panicked, i, d) => (Except.error Fault.panicked, i, d)
      | (Except.ok _, i, d) => (Except.ok (), i, d)
    else
      (Except.ok (), inst2, disk)

/-- `Instance::set`: when the record carries a TTL and a manager is attached
to the instance (`ttl` field `some`), register the entry first (the modelled
`add_entry` always succeeds, so the `?` propagation has nothing to surface);
then run the write path `setWrite`. -/
def set (ops : Ops T) (inst : Instance T) (disk : Disk) (data : T) :
    Except Fault Unit × Instance T × Disk :=
  let inst1 :=
    match ops.ttl data with
    | none => inst
    | some ts =>
      match inst.ttl with
      | none => inst
      | some es => { inst with ttl := some (addEntry (ops.id data) ts es) }
  setWrite ops inst1 disk data

/-- Does this stored line decode to a record carrying identifier `id`? -/
def recMatches (ops : Ops T) (id : String) (l : Line) : Bool :=
  match ops.deserialize l with
  | some d => ops.id d == id
  | none => false

/-- `Instance::delete`: resolve `id` through the index (unknown ids fail with
`Unspecified` before any file operation), read the owning segment with a fresh
handle, locate the first line whose decoded record matches, and rewrite the
file with that line omitted, preserving the order of the remaining lines. The
instance itself (`&self`) is untouched: neither the index entry nor the active
handle's cursor changes; when no line matches, the rewrite is skipped and
`Ok(())` is still returned. -/
def delete (ops : Ops T) (inst : Instance T) (disk : Disk) (id : String) :
    Except Fault Unit × Instance T × Disk :=
  match inst.index.lookup id with
  | none => (Except.error (Fault.db DbError.Unspecified), inst, disk)
  | some file_name =>
    match disk.get file_name with
    | none => (Except.error (Fault.db DbError.FailedReading), inst, disk)
    | some lines =>
      match lines.findIdx? (recMatches ops id) with
      | some idx =>
        (Except.ok (), inst, disk.put file_name (lines.eraseIdx idx))
      | none => (Except.ok (), inst, disk)

/-- Decoding of every line of one segment, in order; the first bincode failure
aborts the whole load with `FailedDeserialization`. -/
def decodeLines (ops : Ops T) : List Line → Except Fault (List T)
  | [] => Except.ok []
  | l :: ls =>
    match ops.deserialize l with
    | none => Except.error (Fault.db DbError.FailedDeserialization)
    | some d =>
      match decodeLines ops ls with
      | Except.error e => Except.error e
      | Except.ok ds => Except.ok (d :: ds)

/-- The directory scan of `load`, file by file in `read_dir` order. Records
accumulate into the world snapshot and the index; the last file seen whose
line count (a `u16`, hence the wrap at 65536) is below capacity becomes the
incomplete file, its freshly consumed handle left at end-of-file. -/
def loadGo (ops : Ops T) :
    List (Nat × List Line) → List T → List (String × Nat) →
    Option (Nat × Nat) →
    Except Fault (List T × List (String × Nat) × Option (Nat × Nat))
  | [], world, index, unc => Except.ok (world, index, unc)
  | (name, ls) :: rest, world, index, unc =>
    match decodeLines ops ls with
    | Except.error e => Except.error e
    | Except.ok ds =>
      let index1 := ds.foldl (fun ix d => insertIdx (ops.id d) name ix) index
      let unc1 :=
        if ls.length % 65536 < MAX_ENTRIES_PER_FILE then some (name, ls.length)
        else unc
      loadGo ops rest (world ++ ds) index1 unc1

/-- `load()`: scan every segment of the data directory. -/
def load (ops : Ops T) (disk : Disk) :
    Except Fault (List T × List (String × Nat) × Option (Nat × Nat)) :=
  loadGo ops disk.files [] [] none

/-- `Instance::new`: run `load`, adopt the incomplete segment as the active
file (cursor at end-of-file) or create a fresh one when every segment is
full, and start with no TTL manager attached and an empty memtable. -/
def new (ops : Ops T) (kb : Nat) (disk : Disk) :
    Except Fault (Instance T × Disk) :=
  match load ops disk with
  | Except.error e => Except.error e
  | Except.ok (world, index, unc) =>
    match unc with
    | some nf => Except.ok (⟨nf.1, nf.2, index, none, world, [], kb⟩, disk)
    | none =>
      let nd := disk.create
      Except.ok (⟨nd.1, 0, index, none, world, [], kb⟩, nd.2)

/-- `Instance::start_ttl`: wrap the instance in a shared handle and register a
TTL entry for every world record that carries one. The source's re-attachment
of the manager to the instance's `ttl` field is commented out, so the instance
is returned unchanged next to the manager's entries. -/
def start_ttl (ops : Ops T) (inst : Instance T) :
    Instance T × List (String × Nat) :=
  (inst,
    inst.entries.foldl
      (fun acc e =>
        match ops.ttl e with
        | some t => addEntry (ops.id e) t acc
        | none => acc)
      [])

/-- A concrete record shape for concrete runs: a numeric identifier and an
optional TTL. -/
structure DRec where
  rid : Nat
  rttl : Option Nat
deriving DecidableEq

/-- Concrete serializer: two bytes, the identifier and the TTL shifted by
one. -/
def dSerialize (r : DRec) : Option Line :=
  some [r.rid, match r.rttl with | none => 0 | some t => t + 1]

/-- Concrete deserializer, inverse of `dSerialize`; every other byte shape is
undecodable. -/
def dDeserialize (l : Line) : Option DRec :=
  match l with
  | [a, 0] => some ⟨a, none⟩
  | [a, b + 1] => some ⟨a, some b⟩
  | _ => none

/-- Concrete capabilities for `DRec`. -/
def demoOps : Ops DRec :=
  { id := fun r => Nat.repr r.rid
    ttl := fun r => r.rttl
    serialize := dSerialize
    deserialize := dDeserialize
    size_of := 16 }

/-- An empty data directory. -/
def emptyDisk : Disk := ⟨[], 0⟩

/-- The instance `new` produces on an empty directory. -/
def initInst (T : Type) (kb : Nat) : Instance T := ⟨0, 0, [], none, [], [], kb⟩

/-- The directory after `new` created the first segment on an empty one. -/
def initDisk : Disk := ⟨[(0, [])], 1⟩

/-- Iterated `set` of one fixed record. -/
def setN (ops : Ops T) (r : T) : Nat → Instance T × Disk → Instance T × Disk
  | 0, s => s
  | k + 1, s => setN ops r k (set ops s.1 s.2 r).2

/-- A memtable of five records. -/
def memFive : List DRec := [⟨1, none⟩, ⟨2, none⟩, ⟨3, none⟩, ⟨4, none⟩, ⟨5, none⟩]

/-- An instance whose active segment holds exactly `MAX_ENTRIES_PER_FILE`
records, the handle cursor at end-of-file as after any load or append, with
five buffered records and buffering enabled. -/
def segFullInst : Instance DRec := ⟨0, 10000, [], none, [], memFive, 1⟩

/-- Its directory: the single, exactly full segment. -/
def segFullDisk : Disk := ⟨[(0, List.replicate 10000 [9, 0])], 1⟩

/- ------------------------------------------------------------------ -/
/- Helper lemmas -/
/- ------------------------------------------------------------------ -/

/-- One threshold-0 `set` on the single-segment state with the cursor at
end-of-file: the rescan counts zero lines, the record is appended, and no
rotation happens. -/
theorem set_zero_step (ops : Ops T) (r : T) (e : Line) (k : Nat)
    (ls : List Line) (hs : ops.serialize r = some e) (hlen : ls.length = k) :
    set ops ⟨0, k, [], none, [], [], 0⟩ ⟨[(0, ls)], 1⟩ r
      = (Except.ok (), ⟨0, k + 1, [], none, [], [], 0⟩, ⟨[(0, ls ++ [e])], 1⟩) := by
  subst hlen
  cases h : ops.ttl r <;>
    simp [set, setWrite, h, hs, save, Disk.get, Disk.put, List.lookup,
      MAX_ENTRIES_PER_FILE]

/-- Iterating threshold-0 `set` from the single-segment state: the active
segment accumulates every record and no second segment ever appears. -/
theorem setN_zero_closed (ops : Ops T) (r : T) (e : Line)
    (hs : ops.serialize r = some e) :
    ∀ k j, setN ops r k (⟨0, j, [], none, [], [], 0⟩, ⟨[(0, List.replicate j e)], 1⟩)
      = (⟨0, j + k, [], none, [], [], 0⟩, ⟨[(0, List.replicate (j + k) e)], 1⟩) := by
  intro k
  induction k with
  | zero => intro j; rfl
  | succ n ih =>
    intro j
    have hstep := set_zero_step ops r e j (List.replicate j e) hs
      (List.length_replicate j e)
    have hrep : List.replicate j e ++ [e] = List.replicate (j + 1) e := by
      simp [List.replicate_add]
    rw [setN, hstep]
    simp only [hrep]
    rw [ih (j + 1)]
    have harith : j + 1 + n = j + (n + 1) := by omega
    rw [harith]

/-- When the cursor sits at end-of-file (as after any load or append) and the
memtable fits under the capacity bound that the rescan reports, `flush` takes
the non-overflow path: it appends the whole serialized memtable to the active
segment and clears the buffer. -/
theorem flush_fits (ops : Ops T) (fn : Nat) (ix : List (String × Nat))
    (tt : Option (List (String × Nat))) (en mem : List T) (kb : Nat)
    (disk : Disk) (ls encs : List Line)
    (hget : disk.get fn = some ls)
    (hm : mem.length ≤ MAX_ENTRIES_PER_FILE)
    (hser : serAll ops mem = some encs) :
    flush ops ⟨fn, ls.length, ix, tt, en, mem, kb⟩ disk
      = (Except.ok (), ⟨fn, (ls ++ encs).length, ix, tt, en, [], kb⟩,
         disk.put fn (ls ++ encs)) := by
  have h1 : flushFit ops ⟨fn, ls.length, ix, tt, en, mem, kb⟩ disk ls
      = (Except.ok (), ⟨fn, (ls ++ encs).length, ix, tt, en, [], kb⟩,
         disk.put fn (ls ++ encs)) := by
    unfold flushFit
    rw [show (⟨fn, ls.length, ix, tt, en, mem, kb⟩ : Instance T).memtable = mem
      from rfl, hser]
  unfold flush
  simp only [hget, Option.getD_some, Nat.sub_self, Nat.max_self, Nat.zero_add]
  rw [if_neg (by omega)]
  exact h1

/-- `save` never touches the index. -/
theorem save_index_eq (inst : Instance T) (disk : Disk) (b : Line) :
    (save inst disk b).2.1.index = inst.index := by
  simp only [save]
  split <;> rfl

/-- The non-overflow path never touches the index. -/
theorem flushFit_index_eq (ops : Ops T) (inst1 : Instance T) (disk : Disk)
    (lines : List Line) :
    (flushFit ops inst1 disk lines).2.1.index = inst1.index := by
  unfold flushFit
  split <;> rfl

/-- The tail of the split path never touches the index. -/
theorem flushSplitWrite_index_eq (ops : Ops T) (inst1 : Instance T)
    (disk : Disk) (lines : List Line) (rest : List T) (partA : List Line) :
    (flushSplitWrite ops inst1 disk lines rest partA).2.1.index
      = inst1.index := by
  unfold flushSplitWrite
  dsimp only
  split <;> rfl

/-- The split path never touches the index. -/
theorem flushSplit_index_eq (ops : Ops T) (inst1 : Instance T) (disk : Disk)
    (lines : List Line) (line_count : Nat) :
    (flushSplit ops inst1 disk lines line_count).2.1.index = inst1.index := by
  unfold flushSplit
  split
  · split <;> rfl
  · dsimp only
    split
    · rfl
    · exact flushSplitWrite_index_eq ops inst1 disk lines _ _

/-- `flush` never touches the index. -/
theorem flush_index_eq (ops : Ops T) (inst : Instance T) (disk : Disk) :
    (flush ops inst disk).2.1.index = inst.index := by
  unfold flush
  dsimp only
  split
  · exact flushSplit_index_eq ops _ disk _ _
  · exact flushFit_index_eq ops _ disk _

/-- The write path of `set` never touches the index. -/
theorem setWrite_index_eq (ops : Ops T) (inst1 : Instance T) (disk : Disk)
    (data : T) :
    (setWrite ops inst1 disk data).2.1.index = inst1.index := by
  simp only [setWrite]
  cases hk : inst1.memtable_flush_size_in_kb with
  | zero =>
    dsimp only
    cases hs : ops.serialize data with
    | none => rfl
    | some e => exact save_index_eq inst1 disk e
  | succ n =>
    dsimp only
    split
    · split <;> rename_i heq <;>
        exact ((congrArg (fun t => t.2.1.index) heq).symm.trans
          (flush_index_eq ops _ disk))
    · rfl

/-- A segment containing an undecodable line fails to decode as a whole. -/
theorem decodeLines_err (ops : Ops T) :
    ∀ ls : List Line, (∃ l ∈ ls, ops.deserialize l = none) →
      decodeLines ops ls = Except.error (Fault.db DbError.FailedDeserialization) := by
  intro ls
  induction ls with
  | nil =>
    intro h
    rcases h with ⟨l, hl, _⟩
    exact absurd hl (List.not_mem_nil l)
  | cons a as ih =>
    intro h
    cases ha : ops.deserialize a with
    | none => simp [decodeLines, ha]
    | some d =>
      have htail : ∃ l ∈ as, ops.deserialize l = none := by
        rcases h with ⟨l, hl, hnone⟩
        rcases List.mem_cons.mp hl with h1 | hmem
        · subst h1; rw [ha] at hnone; exact absurd hnone (by simp)
        · exact ⟨l, hmem, hnone⟩
      simp [decodeLines, ha, ih htail]

/-- A segment whose every line decodes, decodes as a whole. -/
theorem decodeLines_ok (ops : Ops T) :
    ∀ ls : List Line, (∀ l ∈ ls, ops.deserialize l ≠ none) →
      ∃ ds, decodeLines ops ls = Except.ok ds := by
  intro ls
  induction ls with
  | nil => intro _; exact ⟨[], rfl⟩
  | cons a as ih =>
    intro h
    cases ha : ops.deserialize a with
    | none => exact absurd ha (h a (List.mem_cons_self a as))
    | some d =>
      obtain ⟨ds, hds⟩ := ih (fun l hl => h l (List.mem_cons_of_mem a hl))
      exact ⟨d :: ds, by simp [decodeLines, ha, hds]⟩

/-- An undecodable line in any file of the directory scan aborts it with
`FailedDeserialization`, whatever has been accumulated so far. -/
theorem loadGo_err (ops : Ops T) :
    ∀ (fs : List (Nat × List Line)) (world : List T)
      (index : List (String × Nat)) (unc : Option (Nat × Nat)),
      (∃ p ∈ fs, ∃ l ∈ p.2, ops.deserialize l = none) →
      loadGo ops fs world index unc
        = Except.error (Fault.db DbError.FailedDeserialization) := by
  intro fs
  induction fs with
  | nil =>
    intro _ _ _ h
    rcases h with ⟨p, hp, _⟩
    exact absurd hp (List.not_mem_nil p)
  | cons f rest ih =>
    intro world index unc h
    obtain ⟨name, ls⟩ := f
    by_cases hhead : ∃ l ∈ ls, ops.deserialize l = none
    · simp [loadGo, decodeLines_err ops ls hhead]
    · have hok : ∀ l ∈ ls, ops.deserialize l ≠ none := by
        intro l hl hnone
        exact hhead ⟨l, hl, hnone⟩
      obtain ⟨ds, hds⟩ := decodeLines_ok ops ls hok
      have htail : ∃ p ∈ rest, ∃ l ∈ p.2, ops.deserialize l = none := by
        rcases h with ⟨p, hp, hbad⟩
        rcases List.mem_cons.mp hp with h1 | hmem
        · subst h1; exact absurd hbad hhead
        · exact ⟨p, hmem, hbad⟩
      simp [loadGo, hds, ih _ _ _ htail]

/-- The three-record run of the durability scenario: `set` A, then B, then C
on the store `new` produced from an empty directory. -/
def runThree (ops : Ops T) (a b c : T) :
    (Except Fault Unit × Instance T × Disk) ×
    (Except Fault Unit × Instance T × Disk) ×
    (Except Fault Unit × Instance T × Disk) :=
  let r1 := set ops (initInst T 0) initDisk a
  let r2 := set ops r1.2.1 r1.2.2 b
  let r3 := set ops r2.2.1 r2.2.2 c
  (r1, r2, r3)

/- ------------------------------------------------------------------ -/
/- Claim theorems -/
/- ------------------------------------------------------------------ -/

/-- C1: with the memtable disabled, 10,001 `set` calls on a store that starts
empty leave a single segment file holding all 10,001 records, the active
segment never rotating. (`save` counts lines from the handle's shared offset,
which load and every `O_APPEND` write leave at end-of-file, so its
`line_count` is always 0 and the rotation threshold is never reached — the
two-file split of the claim does not happen.) -/
theorem c1_no_rotation_after_10001_sets :
    new demoOps 0 emptyDisk = Except.ok (initInst DRec 0, initDisk) ∧
    (setN demoOps ⟨5, none⟩ 10001 (initInst DRec 0, initDisk)).2.files
        = [(0, List.replicate 10001 [5, 0])] ∧
    (setN demoOps ⟨5, none⟩ 10001 (initInst DRec 0, initDisk)).2.files.length
        = 1 ∧
    (setN demoOps ⟨5, none⟩ 10001 (initInst DRec 0, initDisk)).1.fileName = 0 := by
  have h := setN_zero_closed demoOps ⟨5, none⟩ [5, 0] rfl 10001 0
  simp only [List.replicate_zero, Nat.zero_add] at h
  refine ⟨rfl, ?_, ?_, ?_⟩
  · simp only [initInst, initDisk]
    rw [h]
  · simp only [initInst, initDisk]
    rw [h]
    rfl
  · simp only [initInst, initDisk]
    rw [h]

/-- C2: on an active segment already holding exactly `MAX_ENTRIES_PER_FILE`
records (cursor at end-of-file), flushing a five-record memtable appends all
five to that same segment: the rescan reports 0 lines, so the non-overflow
path runs, the first segment grows to 10,005 records and no second segment is
created — not the split the claim describes. -/
theorem c2_flush_overfills_full_segment :
    (flush demoOps segFullInst segFullDisk).1 = Except.ok () ∧
    (flush demoOps segFullInst segFullDisk).2.2.files
        = [(0, List.replicate 10000 [9, 0]
            ++ [[1, 0], [2, 0], [3, 0], [4, 0], [5, 0]])] := by
  have h := flush_fits demoOps 0 [] none [] memFive 1 segFullDisk
    (List.replicate 10000 [9, 0]) [[1, 0], [2, 0], [3, 0], [4, 0], [5, 0]]
    rfl (by decide) rfl
  rw [List.length_replicate] at h
  constructor
  · rw [show segFullInst = (⟨0, 10000, [], none, [], memFive, 1⟩ : Instance DRec)
      from rfl, h]
  · rw [show segFullInst = (⟨0, 10000, [], none, [], memFive, 1⟩ : Instance DRec)
      from rfl, h]
    rfl

/-- C3: same state as C2: the code takes the non-overflow path and clears the
memtable, where the claim's split path (10,000 + 5 > N) would have left it
with its five records. -/
theorem c3_flush_clears_memtable_on_full_segment :
    (flush demoOps segFullInst segFullDisk).2.1.memtable = [] ∧
    segFullInst.memtable ≠ [] := by
  have h := flush_fits demoOps 0 [] none [] memFive 1 segFullDisk
    (List.replicate 10000 [9, 0]) [[1, 0], [2, 0], [3, 0], [4, 0], [5, 0]]
    rfl (by decide) rfl
  rw [List.length_replicate] at h
  constructor
  · rw [show segFullInst = (⟨0, 10000, [], none, [], memFive, 1⟩ : Instance DRec)
      from rfl, h]
  · simp [segFullInst, memFive]

/-- C4: for an id the index resolves to an existing segment in which some
line decodes to a record with that id, `delete` succeeds and rewrites exactly
that segment with the first matching line removed; every other line is kept
byte for byte, in its original relative order, and every other file is left
alone. -/
theorem c4_delete_removes_first_matching_line (ops : Ops T)
    (inst : Instance T) (disk : Disk) (id : String) (name idx : Nat)
    (ls : List Line)
    (hix : inst.index.lookup id = some name)
    (hget : disk.get name = some ls)
    (hfind : ls.findIdx? (recMatches ops id) = some idx) :
    delete ops inst disk id
      = (Except.ok (), inst, disk.put name (ls.eraseIdx idx)) := by
  simp [delete, hix, hget, hfind]

/-- Witness for C4 at a concrete store. -/
theorem c4_witness :
    delete demoOps ⟨0, 2, [("7", 0)], none, [], [], 0⟩
        ⟨[(0, [[7, 0], [8, 0]])], 1⟩ "7"
      = (Except.ok (), ⟨0, 2, [("7", 0)], none, [], [], 0⟩,
         Disk.put ⟨[(0, [[7, 0], [8, 0]])], 1⟩ 0
           (([[7, 0], [8, 0]] : List Line).eraseIdx 0)) :=
  c4_delete_removes_first_matching_line demoOps
    ⟨0, 2, [("7", 0)], none, [], [], 0⟩ ⟨[(0, [[7, 0], [8, 0]])], 1⟩
    "7" 0 0 [[7, 0], [8, 0]] rfl rfl (by decide)

/-- C5: for an id absent from the index, `delete` fails with `Unspecified`
before any file operation: the instance and every on-disk segment come back
unchanged, even when the memtable holds a record with that id. -/
theorem c5_delete_unknown_id_fails (ops : Ops T) (inst : Instance T)
    (disk : Disk) (id : String)
    (h : inst.index.lookup id = none) :
    delete ops inst disk id
      = (Except.error (Fault.db DbError.Unspecified), inst, disk) := by
  simp [delete, h]

/-- Witness for C5: the id sits in the memtable yet delete still fails and
touches nothing. -/
theorem c5_witness :
    delete demoOps ⟨0, 0, [], none, [], [⟨3, none⟩], 1⟩
        ⟨[(0, [[4, 0]])], 1⟩ "3"
      = (Except.error (Fault.db DbError.Unspecified),
         ⟨0, 0, [], none, [], [⟨3, none⟩], 1⟩, ⟨[(0, [[4, 0]])], 1⟩) :=
  c5_delete_unknown_id_fails demoOps ⟨0, 0, [], none, [], [⟨3, none⟩], 1⟩
    ⟨[(0, [[4, 0]])], 1⟩ "3" rfl

/-- C6: the record index is written only by the load of `new`: for every
state and every input, `set` leaves it unchanged (nothing is indexed for
newly written records) and `delete` leaves it unchanged (the entry of a
deleted identifier stays). -/
theorem c6_index_only_written_by_load (ops : Ops T) (inst : Instance T)
    (disk : Disk) (data : T) (id : String) :
    (set ops inst disk data).2.1.index = inst.index ∧
    (delete ops inst disk id).2.1.index = inst.index := by
  constructor
  · unfold set
    cases ops.ttl data with
    | none => exact setWrite_index_eq ops inst disk data
    | some ts =>
      cases inst.ttl with
      | none => exact setWrite_index_eq ops inst disk data
      | some es =>
        exact setWrite_index_eq ops
          { inst with ttl := some (addEntry (ops.id data) ts es) } disk data
  · simp only [delete]
    split
    · rfl
    · split
      · rfl
      · split <;> rfl

/-- C7: `set` on a record that carries a TTL registers nothing: the `ttl`
manager field is `none` in every state `new` can produce and no operation of
the source ever re-attaches one (the assignment inside `start_ttl` is
commented out), so the registration chain of `set` is skipped and the call
still returns success with no entry recorded anywhere. -/
theorem c7_set_registers_no_ttl_entry :
    new demoOps 0 emptyDisk = Except.ok (initInst DRec 0, initDisk) ∧
    (initInst DRec 0).ttl = none ∧
    (start_ttl demoOps (initInst DRec 0)).1.ttl = none ∧
    (set demoOps (initInst DRec 0) initDisk ⟨42, some 500⟩).1
        = Except.ok () ∧
    (set demoOps (initInst DRec 0) initDisk ⟨42, some 500⟩).2.1.ttl = none :=
  ⟨rfl, rfl, rfl, rfl, rfl⟩

/-- C8: an undecodable line anywhere in any segment aborts the whole startup
load: `new` returns the `FailedDeserialization` error and no instance. -/
theorem c8_corrupted_line_aborts_load (ops : Ops T) (kb : Nat) (disk : Disk)
    (h : ∃ p ∈ disk.files, ∃ l ∈ p.2, ops.deserialize l = none) :
    new ops kb disk = Except.error (Fault.db DbError.FailedDeserialization) := by
  unfold new load
  rw [loadGo_err ops disk.files [] [] none h]

/-- Witness for C8: one three-byte line no record decodes from. -/
theorem c8_witness :
    new demoOps 0 ⟨[(0, [[1, 2, 3]])], 1⟩
      = Except.error (Fault.db DbError.FailedDeserialization) :=
  c8_corrupted_line_aborts_load demoOps 0 ⟨[(0, [[1, 2, 3]])], 1⟩ (by decide)

/-- C9: with the memtable disabled, setting three distinct records A, B, C on
a store that starts empty and then loading the same directory afresh yields
an entries snapshot of exactly [A, B, C], in insertion order. -/
theorem c9_three_sets_reload_in_order (ops : Ops T) (a b c : T)
    (ea eb ec : Line)
    (hsa : ops.serialize a = some ea) (hsb : ops.serialize b = some eb)
    (hsc : ops.serialize c = some ec)
    (hda : ops.deserialize ea = some a) (hdb : ops.deserialize eb = some b)
    (hdc : ops.deserialize ec = some c)
    (hab : a ≠ b) (hbc : b ≠ c) (hac : a ≠ c) :
    new ops 0 emptyDisk = Except.ok (initInst T 0, initDisk) ∧
    (runThree ops a b c).1.1 = Except.ok () ∧
    (runThree ops a b c).2.1.1 = Except.ok () ∧
    (runThree ops a b c).2.2.1 = Except.ok () ∧
    ∃ inst2 disk2,
      new ops 0 (runThree ops a b c).2.2.2.2 = Except.ok (inst2, disk2) ∧
      inst2.entries = [a, b, c] := by
  have h1 := set_zero_step ops a ea 0 [] hsa rfl
  have h2 := set_zero_step ops b eb 1 [ea] hsb rfl
  have h3 := set_zero_step ops c ec 2 [ea, eb] hsc rfl
  simp only [List.nil_append, List.cons_append] at h1 h2 h3
  refine ⟨rfl, ?_, ?_, ?_, ?_⟩
  · simp only [runThree, initInst, initDisk, h1]
  · simp only [runThree, initInst, initDisk, h1, h2]
  · simp only [runThree, initInst, initDisk, h1, h2, h3]
  · simp only [runThree, initInst, initDisk, h1, h2, h3]
    have hd : decodeLines ops [ea, eb, ec] = Except.ok [a, b, c] := by
      simp [decodeLines, hda, hdb, hdc]
    refine ⟨⟨0, 3, [a, b, c].foldl (fun ix d => insertIdx (ops.id d) 0 ix) [],
      none, [a, b, c], [], 0⟩, ⟨[(0, [ea, eb, ec])], 1⟩, ?_, rfl⟩
    simp [new, load, loadGo, hd, MAX_ENTRIES_PER_FILE]

/-- Witness for C9 at three concrete distinct records. -/
theorem c9_witness :
    new demoOps 0 emptyDisk = Except.ok (initInst DRec 0, initDisk) ∧
    (runThree demoOps ⟨1, none⟩ ⟨2, none⟩ ⟨3, none⟩).1.1 = Except.ok () ∧
    (runThree demoOps ⟨1, none⟩ ⟨2, none⟩ ⟨3, none⟩).2.1.1 = Except.ok () ∧
    (runThree demoOps ⟨1, none⟩ ⟨2, none⟩ ⟨3, none⟩).2.2.1 = Except.ok () ∧
    ∃ inst2 disk2,
      new demoOps 0 (runThree demoOps ⟨1, none⟩ ⟨2, none⟩ ⟨3, none⟩).2.2.2.2
        = Except.ok (inst2, disk2) ∧
      inst2.entries = [⟨1, none⟩, ⟨2, none⟩, ⟨3, none⟩] :=
  c9_three_sets_reload_in_order demoOps ⟨1, none⟩ ⟨2, none⟩ ⟨3, none⟩
    [1, 0] [2, 0] [3, 0] rfl rfl rfl rfl rfl rfl
    (by decide) (by decide) (by decide)

/-- C10: for an id the index maps to an existing segment none of whose lines
decodes to a record with that id (a stale entry), `delete` still returns
success while leaving the segment — and the whole disk — untouched. -/
theorem c10_stale_index_silent_success (ops : Ops T) (inst : Instance T)
    (disk : Disk) (id : String) (name : Nat) (ls : List Line)
    (hix : inst.index.lookup id = some name)
    (hget : disk.get name = some ls)
    (hnone : ∀ l ∈ ls, recMatches ops id l = false) :
    delete ops inst disk id = (Except.ok (), inst, disk) := by
  have hfind : ls.findIdx? (recMatches ops id) = none :=
    List.findIdx?_eq_none_iff.mpr hnone
  simp [delete, hix, hget, hfind]

/-- Witness for C10: the index claims id 9 lives in segment 0, but segment 0
only holds record 7. -/
theorem c10_witness :
    delete demoOps ⟨0, 1, [("9", 0)], none, [], [], 0⟩ ⟨[(0, [[7, 0]])], 1⟩ "9"
      = (Except.ok (), ⟨0, 1, [("9", 0)], none, [], [], 0⟩,
         ⟨[(0, [[7, 0]])], 1⟩) :=
  c10_stale_index_silent_success demoOps ⟨0, 1, [("9", 0)], none, [], [], 0⟩
    ⟨[(0, [[7, 0]])], 1⟩ "9" 0 [[7, 0]] rfl rfl (by decide)

end SquidDB
